import Mathlib

/-!
A shallow embedding of `src/doc_manager.py`: an abstract `Document` class
(fields `filename` and `_content`), two concrete variants (`PDFDocument`,
`WordDocument`) overriding `open`/`save`, the shared concrete `read`, the
polymorphic `process_document` routine, and the `__main__` demonstration.
Printing is modelled by returning the printed strings; the mutable object is
modelled by explicit state passing; dynamic dispatch is modelled by a variant
tag.  The `doc._content += ...` statement of `process_document` can raise a
`TypeError` in Python when `_content` is `None`; it is modelled with `Except`.
-/

/-- The two concrete subclasses of the abstract `Document` class
(`PDFDocument` and `WordDocument`); which `open`/`save` body runs is
determined by this tag. -/
inductive DocKind where
  | pdf
  | word
deriving DecidableEq, Repr

/-- The state of a document object: the public `filename` attribute and the
protected `_content` attribute (`None` initially). -/
structure Document where
  filename : String
  content : Option String
deriving DecidableEq, Repr

/-- `Document.__init__` (lines 14-17): store the filename, set `_content`
to `None`. -/
def Document.init (filename : String) : Document :=
  { filename := filename, content := none }

/-- The "not loaded" notice printed by `read` (line 34). -/
def notLoadedMsg (filename : String) : String :=
  "Content for '" ++ filename ++ "' is not loaded. Please open the document first."

/-- The content-framed output printed by `read` (line 36). -/
def framedMsg (filename content : String) : String :=
  "Reading content of '" ++ filename ++ "':\n---\n" ++ content ++ "\n---"

/-- `Document.read` (lines 31-36): the single line it prints; the state is
not touched. -/
def Document.read (d : Document) : String :=
  match d.content with
  | none => notLoadedMsg d.filename
  | some c => framedMsg d.filename c

/-- The placeholder content assigned by `PDFDocument.open` (line 49). -/
def pdfText : String :=
  "This is the complex, binary-formatted content of a PDF file."

/-- The placeholder content assigned by `WordDocument.open` (line 62). -/
def wordText : String :=
  "This is the rich-text, XML-based content of a Word document."

/-- The placeholder text a variant's `open` assigns to `_content`. -/
def placeholderText : DocKind → String
  | .pdf => pdfText
  | .word => wordText

/-- The message printed by a variant's `open` (lines 47 and 60). -/
def openMsg (k : DocKind) (filename : String) : String :=
  match k with
  | .pdf => "Opening PDF '" ++ filename ++ "' using a PDF reader library..."
  | .word => "Opening Word document '" ++ filename ++ "' using a word processor library..."

/-- `PDFDocument.open` / `WordDocument.open` (lines 46-49 and 59-62): print
the variant's message and assign the variant's placeholder text to
`_content`.  Returns the printed line and the new state. -/
def openDoc (k : DocKind) (d : Document) : String × Document :=
  (openMsg k d.filename, { d with content := some (placeholderText k) })

/-- The message printed by a variant's `save` (lines 52 and 65). -/
def saveMsg (k : DocKind) (filename : String) : String :=
  match k with
  | .pdf => "Saving content to PDF '" ++ filename ++ "' with specific PDF formatting..."
  | .word => "Saving content to Word '" ++ filename ++ "' with specific Word formatting..."

/-- `PDFDocument.save` / `WordDocument.save` (lines 51-53 and 64-66): print
the variant's message only; the state is unchanged. -/
def saveDoc (k : DocKind) (d : Document) : String × Document :=
  (saveMsg k d.filename, d)

/-- The suffix appended by `process_document` (line 80). -/
def appendedSuffix : String := "\n[Appended by processing script]"

/-- `process_document` (lines 74-82): print the header, call `open`, call
`read`, execute `doc._content += "\n[Appended by processing script]"`
(which, as in Python, raises a `TypeError` when `_content` is `None` —
modelled as `Except.error`), call `save`, print the footer.  Returns the
printed lines and the final state. -/
def process_document (k : DocKind) (d : Document) :
    Except String (List String × Document) :=
  let header := "\n--- Processing document: " ++ d.filename ++ " ---"
  let od := openDoc k d
  let readLine := Document.read od.2
  match od.2.content with
  | none => Except.error "TypeError: unsupported operand type(s) for +=: NoneType and str"
  | some c =>
    let d2 := { od.2 with content := some (c ++ appendedSuffix) }
    let sd := saveDoc k d2
    Except.ok ([header, od.1, readLine, sd.1, "--- Finished processing ---"], sd.2)

/-- The printed lines of the processing loop in the `__main__` block
(lines 86-97): process the PDF report `annual_report.pdf`, then the Word
memo `team_memo.docx`.  The `Except.error` branches are unreachable (the
append always succeeds because `open` runs first). -/
def mainProcessOutput : List String :=
  (match process_document .pdf (Document.init "annual_report.pdf") with
   | Except.ok r => r.1
   | Except.error e => [e]) ++
  (match process_document .word (Document.init "team_memo.docx") with
   | Except.ok r => r.1
   | Except.error e => [e])

/-- The public operations a caller can perform on a document object after
construction. -/
inductive Op where
  | openOp
  | readOp
  | saveOp
  | processOp
deriving DecidableEq, Repr

/-- The state transition of one public operation (printed output
discarded).  `read` and `save` leave the state unchanged; the error branch
of `process_document` never fires (its `open` runs first) and is mapped to
the unchanged state. -/
def applyOp (k : DocKind) (op : Op) (d : Document) : Document :=
  match op with
  | .openOp => (openDoc k d).2
  | .readOp => d
  | .saveOp => (saveDoc k d).2
  | .processOp =>
    match process_document k d with
    | Except.ok r => r.2
    | Except.error _ => d

/-- Run a sequence of public operations from a state. -/
def runOps (k : DocKind) (d : Document) : List Op → Document
  | [] => d
  | op :: ops => runOps k (applyOp k op d) ops

/-- `pat` occurs as a contiguous substring of `hay`. -/
def substringOf (pat hay : String) : Prop :=
  pat.data <:+: hay.data

instance (pat hay : String) : Decidable (substringOf pat hay) :=
  List.decidableInfix pat.data hay.data

/-- The stdout produced by calling `open` and then `read` on a freshly
constructed variant instance: the two printed lines, joined by the newline
that `print` emits. -/
def openReadOut (k : DocKind) (f : String) : String :=
  (openDoc k (Document.init f)).1 ++ "\n" ++ Document.read (openDoc k (Document.init f)).2

/-- The other variant. -/
def otherKind : DocKind → DocKind
  | .pdf => .word
  | .word => .pdf

/-- Modelled from the spec: the construction-time check of Python's
abstract-base-class machinery (the `ABC`/`abstractmethod` runtime from the
standard library, which is not part of `src/`): instantiating `Document`
without a concrete variant that implements `open` and `save` raises a
`TypeError` at construction time; instantiating through a concrete variant
succeeds and runs `Document.__init__`. -/
def mkDocument (variant : Option DocKind) (filename : String) : Except String Document :=
  match variant with
  | none => Except.error "TypeError: Can't instantiate abstract class Document with abstract methods open, save"
  | some _ => Except.ok (Document.init filename)

/-- `(a ++ b).data` splits into the two character lists. -/
theorem strData_append (a b : String) : (a ++ b).data = a.data ++ b.data := rfl

/-- The single-quote character, which frames every filename interpolation in
the printed messages and occurs in no placeholder text. -/
def quoteChar : Char := Char.ofNat 39

/-- A pattern that avoids a character `d` and occurs in `x ++ d :: y` occurs
entirely in `x` or entirely in `y`. -/
theorem infix_split_cons {α : Type _} {pat x y : List α} {d : α}
    (hd : d ∉ pat) (h : pat <:+: x ++ d :: y) : pat <:+: x ∨ pat <:+: y := by
  obtain ⟨s, t, hst⟩ := h
  rcases le_or_lt (s.length + pat.length) x.length with hle | hgt
  · left
    have hp1 : s ++ pat <+: x ++ d :: y := ⟨t, hst⟩
    have hp2 : x <+: x ++ d :: y := ⟨d :: y, rfl⟩
    obtain ⟨r, hr⟩ := List.prefix_of_prefix_length_le hp1 hp2 (by simpa using hle)
    exact ⟨s, r, hr⟩
  · rcases le_or_lt s.length x.length with hsx | hxs
    · exfalso
      apply hd
      have hlen : x.length - s.length < pat.length := by omega
      have h1 : (x ++ d :: y)[x.length]? = some d := by
        rw [List.getElem?_append_right (Nat.le_refl _)]
        simp
      have h2 : (s ++ pat ++ t)[x.length]? = pat[x.length - s.length]? := by
        rw [List.getElem?_append_left (by simp [List.length_append]; omega),
          List.getElem?_append_right hsx]
      rw [hst, h1] at h2
      exact List.getElem?_mem h2.symm
    · right
      have hs1 : pat ++ t <:+ x ++ d :: y := ⟨s, by rw [← List.append_assoc]; exact hst⟩
      have hs2 : y <:+ x ++ d :: y := ⟨x ++ [d], by simp⟩
      have hL := congrArg List.length hst
      simp [List.length_append] at hL
      obtain ⟨r, hr⟩ :=
        List.suffix_of_suffix_length_le hs1 hs2 (by simp [List.length_append]; omega)
      exact ⟨r, t, by rw [List.append_assoc]; exact hr⟩

/-- The characters printed by `open`-then-`read` on a fresh PDF document,
split at the four single quotes that frame the two filename
interpolations. -/
theorem pdfOut_decomp (f : String) :
    (openReadOut DocKind.pdf f).data =
      "Opening PDF ".data ++ quoteChar :: (f.data ++ quoteChar ::
        (" using a PDF reader library...\nReading content of ".data ++ quoteChar ::
          (f.data ++ quoteChar :: (":\n---\n".data ++ pdfText.data ++ "\n---".data)))) := by
  simp only [openReadOut, openDoc, openMsg, Document.read, Document.init, framedMsg,
    placeholderText, strData_append]
  simp [quoteChar, List.append_assoc]

/-- The characters printed by `open`-then-`read` on a fresh Word document,
split at the four single quotes that frame the two filename
interpolations. -/
theorem wordOut_decomp (f : String) :
    (openReadOut DocKind.word f).data =
      "Opening Word document ".data ++ quoteChar :: (f.data ++ quoteChar ::
        (" using a word processor library...\nReading content of ".data ++ quoteChar ::
          (f.data ++ quoteChar :: (":\n---\n".data ++ wordText.data ++ "\n---".data)))) := by
  simp only [openReadOut, openDoc, openMsg, Document.read, Document.init, framedMsg,
    placeholderText, strData_append]
  simp [quoteChar, List.append_assoc]

set_option maxRecDepth 10000 in
/-- `open`-then-`read` on a fresh PDF document shows the PDF placeholder
and, unless the filename smuggles it in, not the Word placeholder. -/
theorem pdf_openRead_contains (f : String) (h : ¬ substringOf wordText f) :
    substringOf pdfText (openReadOut DocKind.pdf f) ∧
    ¬ substringOf wordText (openReadOut DocKind.pdf f) := by
  constructor
  · refine ⟨"Opening PDF ".data ++ quoteChar :: (f.data ++ quoteChar ::
      (" using a PDF reader library...\nReading content of ".data ++ quoteChar ::
        (f.data ++ quoteChar :: ":\n---\n".data))), "\n---".data, ?_⟩
    rw [pdfOut_decomp]
    simp [List.append_assoc]
  · intro hc
    have hq : quoteChar ∉ wordText.data := by decide
    have hc1 : wordText.data <:+: (openReadOut DocKind.pdf f).data := hc
    rw [pdfOut_decomp] at hc1
    rcases infix_split_cons hq hc1 with h1 | hc2
    · exact absurd h1 (by decide)
    rcases infix_split_cons hq hc2 with h2 | hc3
    · exact h h2
    rcases infix_split_cons hq hc3 with h3 | hc4
    · exact absurd h3 (by decide)
    rcases infix_split_cons hq hc4 with h4 | h5
    · exact h h4
    · exact absurd h5 (by decide)

set_option maxRecDepth 10000 in
/-- `open`-then-`read` on a fresh Word document shows the Word placeholder
and, unless the filename smuggles it in, not the PDF placeholder. -/
theorem word_openRead_contains (f : String) (h : ¬ substringOf pdfText f) :
    substringOf wordText (openReadOut DocKind.word f) ∧
    ¬ substringOf pdfText (openReadOut DocKind.word f) := by
  constructor
  · refine ⟨"Opening Word document ".data ++ quoteChar :: (f.data ++ quoteChar ::
      (" using a word processor library...\nReading content of ".data ++ quoteChar ::
        (f.data ++ quoteChar :: ":\n---\n".data))), "\n---".data, ?_⟩
    rw [wordOut_decomp]
    simp [List.append_assoc]
  · intro hc
    have hq : quoteChar ∉ pdfText.data := by decide
    have hc1 : pdfText.data <:+: (openReadOut DocKind.word f).data := hc
    rw [wordOut_decomp] at hc1
    rcases infix_split_cons hq hc1 with h1 | hc2
    · exact absurd h1 (by decide)
    rcases infix_split_cons hq hc2 with h2 | hc3
    · exact h h2
    rcases infix_split_cons hq hc3 with h3 | hc4
    · exact absurd h3 (by decide)
    rcases infix_split_cons hq hc4 with h4 | h5
    · exact h h4
    · exact absurd h5 (by decide)

/-- After `open`, `content` holds the variant's placeholder text. -/
theorem applyOp_openOp_content (k : DocKind) (d : Document) :
    (applyOp k Op.openOp d).content = some (placeholderText k) := rfl

/-- `read` leaves the state unchanged. -/
theorem applyOp_readOp (k : DocKind) (d : Document) :
    applyOp k Op.readOp d = d := rfl

/-- `save` leaves the state unchanged. -/
theorem applyOp_saveOp (k : DocKind) (d : Document) :
    applyOp k Op.saveOp d = d := rfl

/-- After `process_document`, `content` holds the placeholder text plus the
appended suffix. -/
theorem applyOp_processOp_content (k : DocKind) (d : Document) :
    (applyOp k Op.processOp d).content = some (placeholderText k ++ appendedSuffix) := rfl

/-- `content` is `none` after a run exactly when it started as `none` and no
`open` (direct, or inside `process_document`) occurred. -/
theorem runOps_content_none (k : DocKind) (ops : List Op) (d : Document) :
    (runOps k d ops).content = none ↔
      (d.content = none ∧ ∀ op ∈ ops, op ≠ Op.openOp ∧ op ≠ Op.processOp) := by
  induction ops generalizing d with
  | nil => simp [runOps]
  | cons op ops ih =>
    cases op with
    | openOp =>
      rw [runOps, ih]
      simp [applyOp_openOp_content]
    | readOp =>
      rw [runOps, applyOp_readOp, ih]
      simp
    | saveOp =>
      rw [runOps, applyOp_saveOp, ih]
      simp
    | processOp =>
      rw [runOps, ih]
      simp [applyOp_processOp_content]

/-- C4: in every state reachable from a freshly constructed document by the
public operations, `content` is absent exactly until an `open` has happened:
absent after construction and while only `read`/`save` ran, present as soon
as `open` (directly or via `process_document`) has been called, and present
from then on. -/
theorem content_absent_iff_never_opened (k : DocKind) (f : String) (ops : List Op) :
    (runOps k (Document.init f) ops).content = none ↔
      ∀ op ∈ ops, op ≠ Op.openOp ∧ op ≠ Op.processOp := by
  rw [runOps_content_none]
  simp [Document.init]

/-- C1: for every variant, `process_document` on a freshly constructed
instance succeeds and leaves `content` equal to that variant's placeholder
text followed by the fixed appended suffix, in that order. -/
theorem process_document_fresh_content (k : DocKind) (f : String) :
    ∃ ls d, process_document k (Document.init f) = Except.ok (ls, d) ∧
      d.content = some (placeholderText k ++ appendedSuffix) :=
  ⟨_, _, rfl, rfl⟩

/-- C3: `read` with absent content yields exactly the "not loaded" notice
and never the content-framed output; with content present it yields exactly
the framed output and never the "not loaded" notice. -/
theorem read_notLoaded_vs_framed (f c : String) :
    Document.read ⟨f, none⟩ = notLoadedMsg f ∧
    (∀ c2, Document.read ⟨f, none⟩ ≠ framedMsg f c2) ∧
    Document.read ⟨f, some c⟩ = framedMsg f c ∧
    Document.read ⟨f, some c⟩ ≠ notLoadedMsg f := by
  refine ⟨rfl, ?_, rfl, ?_⟩
  · intro c2 h
    have hC : (Document.read ⟨f, none⟩).data.head? = some 'C' := rfl
    have hR : (framedMsg f c2).data.head? = some 'R' := rfl
    rw [h, hR] at hC
    exact absurd hC (by decide)
  · intro h
    have hR : (Document.read ⟨f, some c⟩).data.head? = some 'R' := rfl
    have hC : (notLoadedMsg f).data.head? = some 'C' := rfl
    rw [h, hC] at hR
    exact absurd hR (by decide)

/-- C6: the demonstration loop produces, in order, the PDF header, the PDF
open message, the PDF read output, the PDF save message and footer, then
the same sequence for the Word memo. -/
theorem mainProcessOutput_eq :
    mainProcessOutput =
      ["\n--- Processing document: annual_report.pdf ---",
       "Opening PDF 'annual_report.pdf' using a PDF reader library...",
       "Reading content of 'annual_report.pdf':\n---\nThis is the complex, binary-formatted content of a PDF file.\n---",
       "Saving content to PDF 'annual_report.pdf' with specific PDF formatting...",
       "--- Finished processing ---",
       "\n--- Processing document: team_memo.docx ---",
       "Opening Word document 'team_memo.docx' using a word processor library...",
       "Reading content of 'team_memo.docx':\n---\nThis is the rich-text, XML-based content of a Word document.\n---",
       "Saving content to Word 'team_memo.docx' with specific Word formatting...",
       "--- Finished processing ---"] := by
  rfl

/-- C7: `save` always succeeds, emits only its descriptive message, and
leaves the document state (filename and content) unchanged. -/
theorem saveDoc_frame (k : DocKind) (d : Document) :
    saveDoc k d = (saveMsg k d.filename, d) :=
  rfl

/-- C8: no public operation changes the filename a document was
constructed with. -/
theorem filename_immutable (k : DocKind) (op : Op) (d : Document) :
    (applyOp k op d).filename = d.filename := by
  cases op <;> rfl

/-- C9: `open` overwrites rather than appends — in any state it sets
`content` to exactly the variant's placeholder text, discarding any prior
content; in particular it is idempotent. -/
theorem openDoc_overwrites (k : DocKind) (d : Document) :
    (openDoc k d).2 = ⟨d.filename, some (placeholderText k)⟩ ∧
    (openDoc k (openDoc k d).2).2 = (openDoc k d).2 :=
  ⟨rfl, rfl⟩

/-- C10: the append inside `process_document` never fails — `open` runs
first and every variant's `open` assigns a string to `_content`, so the
`TypeError` branch is unreachable and `process_document` always returns
`Except.ok`. -/
theorem process_document_append_safe (k : DocKind) (d : Document) :
    ∃ r, process_document k d = Except.ok r :=
  ⟨_, rfl⟩

/-- C5: instantiating the abstract `Document` contract without a concrete
variant fails at construction time with a `TypeError`, and this is the only
failure in the system — construction through a variant succeeds, and
`process_document` (the one other operation with an error branch) always
returns `Except.ok`. -/
theorem abstract_instantiation_only_failure :
    (∀ f, mkDocument none f =
      Except.error "TypeError: Can't instantiate abstract class Document with abstract methods open, save") ∧
    (∀ k f, mkDocument (some k) f = Except.ok ⟨f, none⟩) ∧
    (∀ k d, ∃ r, process_document k d = Except.ok r) :=
  ⟨fun _ => rfl, fun _ _ => rfl, fun _ _ => ⟨_, rfl⟩⟩

/-- C2 (counterexample to the unrestricted claim): a PDF instance whose
filename is itself the Word placeholder text — `open`-then-`read` output
then does contain the other variant's placeholder text. -/
theorem openRead_contains_other_counterexample :
    substringOf (placeholderText (otherKind DocKind.pdf))
      (openReadOut DocKind.pdf
        "This is the rich-text, XML-based content of a Word document.") := by
  decide

/-- C2 (amended): for every variant and every instance whose filename does
not itself contain the other variant's placeholder text, `open` then `read`
produces output containing the variant's literal placeholder text and not
the other variant's placeholder text. -/
theorem openRead_placeholder_containment (k : DocKind) (f : String)
    (h : ¬ substringOf (placeholderText (otherKind k)) f) :
    substringOf (placeholderText k) (openReadOut k f) ∧
    ¬ substringOf (placeholderText (otherKind k)) (openReadOut k f) := by
  cases k
  · exact pdf_openRead_contains f h
  · exact word_openRead_contains f h

/-- C2 witness: the amended statement at the PDF variant with the
program's own filename. -/
theorem openRead_placeholder_containment_witness :
    ¬ substringOf (placeholderText (otherKind DocKind.pdf)) "annual_report.pdf" ∧
    (substringOf (placeholderText DocKind.pdf) (openReadOut DocKind.pdf "annual_report.pdf") ∧
     ¬ substringOf (placeholderText (otherKind DocKind.pdf))
        (openReadOut DocKind.pdf "annual_report.pdf")) :=
  ⟨by decide, openRead_placeholder_containment DocKind.pdf "annual_report.pdf" (by decide)⟩
